import Mathlib

/-!
Verification of the SABnzbd→Discord notification script
(src/sabnzbd/sabnzbd-discord.py) against its specification.

The script is embedded shallowly: Python strings are modelled as `List Char`
(`Chars`), Python dictionaries with string keys as association lists with
replace-on-assign insertion, and Python `int` as `Int`.  The HSL→RGB helper is
modelled over `ℚ`; at the single input the specification fixes (37, 1.0, 0.5)
the exact rational computation and the script's float computation agree, since
no intermediate value lies near a rounding boundary.  Effectful parts are made
explicit parameters: the current-time string (`now`) stands for
`datetime.datetime.utcnow().isoformat()`, and an `HttpResult` value stands for
the outcome the HTTP transport would deliver; `send_webhook` additionally
reports how many transport calls it performed, so that the debug-mode dry-run
property is expressible.
-/

/-- Python strings, modelled as lists of characters. -/
abbrev Chars := List Char

/-- Characters stripped by Python `str.strip()` (the ASCII/Latin-1 portion of
Python's whitespace set: space, tab, LF, CR, VT, FF, FS, GS, RS, US, NEL,
NBSP). -/
def isPySpace (c : Char) : Bool :=
  c.toNat = 32 || c.toNat = 9 || c.toNat = 10 || c.toNat = 13 ||
  c.toNat = 11 || c.toNat = 12 || c.toNat = 28 || c.toNat = 29 ||
  c.toNat = 30 || c.toNat = 31 || c.toNat = 133 || c.toNat = 160

/-- Line boundaries recognised by Python `str.splitlines()`:
LF, CR, VT, FF, FS, GS, RS, NEL, LINE SEPARATOR, PARAGRAPH SEPARATOR
(CRLF is treated as a single boundary by `pySplitlinesAux`). -/
def isLineBreak (c : Char) : Bool :=
  c.toNat = 10 || c.toNat = 13 || c.toNat = 11 || c.toNat = 12 ||
  c.toNat = 28 || c.toNat = 29 || c.toNat = 30 || c.toNat = 133 ||
  c.toNat = 8232 || c.toNat = 8233

/-- Python `str.strip()`: drop leading and trailing whitespace. -/
def pyStrip (s : Chars) : Chars :=
  ((s.dropWhile isPySpace).reverse.dropWhile isPySpace).reverse

/-- Python `str.lower()` (ASCII letters; the script only lowers ASCII data). -/
def pyLower (s : Chars) : Chars := s.map Char.toLower

/-- Python `str.capitalize()`: first character upper-cased, rest lower-cased. -/
def pyCapitalize : Chars → Chars
  | [] => []
  | c :: rest => Char.toUpper c :: pyLower rest

/-- Worker for `pySplitlines`; `cur` holds the current line, reversed. -/
def pySplitlinesAux : Chars → Chars → List Chars
  | [], cur => if cur.isEmpty then [] else [cur.reverse]
  | '\r' :: '\n' :: rest, cur => cur.reverse :: pySplitlinesAux rest []
  | c :: rest, cur =>
    if isLineBreak c then cur.reverse :: pySplitlinesAux rest []
    else pySplitlinesAux rest (c :: cur)

/-- Python `str.splitlines()`: split at line boundaries, no trailing empty
line for a terminal boundary, and `[]` on the empty string. -/
def pySplitlines (s : Chars) : List Chars := pySplitlinesAux s []

/-- Python `line.split(":", 1)` combined with the `":" in line` test:
`some (before, after)` at the first colon, `none` if no colon occurs. -/
def splitFirstColon : Chars → Option (Chars × Chars)
  | [] => none
  | c :: rest =>
    if c = ':' then some ([], rest)
    else
      match splitFirstColon rest with
      | some kv => some (c :: kv.1, kv.2)
      | none => none

/-- Python `"\n".join(lines)`. -/
def joinNL : List Chars → Chars
  | [] => []
  | [l] => l
  | l :: l2 :: ls => l ++ '\n' :: joinNL (l2 :: ls)

/-- Python `u.split(',')`. -/
def splitComma : Chars → List Chars
  | [] => [[]]
  | c :: rest =>
    if c = ',' then [] :: splitComma rest
    else
      match splitComma rest with
      | r :: rs => (c :: r) :: rs
      | [] => [[c]]

/-- Truthiness of a Python `Optional[str]`: `None` and `""` are falsy. -/
def pyTruthy : Option Chars → Bool
  | some s => !s.isEmpty
  | none => false

/-- Python `opt or dflt` where `opt : Optional[str]` (used for the
`parsed_fields.get(...) or ...` chains): the option's value when it is truthy,
otherwise the default. -/
def pyGetOr (o : Option Chars) (dflt : Chars) : Chars :=
  match o with
  | some v => if v.isEmpty then dflt else v
  | none => dflt

/-- Module constant DEFAULT_SAB_ICON of the script. -/
def DEFAULT_SAB_ICON : Chars := "https://github.com/sabnzbd.png".data

/-- Module constant DEFAULT_USERNAME of the script. -/
def DEFAULT_USERNAME : Chars := "SABnzbd".data

/-- Module constant DEFAULT_AVATAR of the script (an `Optional[str]`). -/
def DEFAULT_AVATAR : Option Chars := some "https://github.com/sabnzbd.png".data

/-- Module constant DEFAULT_DEBUG of the script. -/
def DEFAULT_DEBUG : Bool := false

/-- EVENT_MAP of the script: event type → (human label, emoji, color). -/
def EVENT_MAP : List (Chars × Chars × Chars × Int) :=
  [ ("download".data, "Added NZB".data, "📥".data, 0xF39C12),
    ("complete".data, "Job finished".data, "✅".data, 0x2ECC71),
    ("failed".data, "Job failed".data, "❌".data, 0xE74C3C),
    ("error".data, "Error".data, "🛑".data, 0xE74C3C),
    ("warning".data, "Warning".data, "⚠️".data, 0xF1C40F),
    ("queue_done".data, "Queue finished".data, "ℹ️".data, 0x3498DB),
    ("startup".data, "Startup/Shutdown".data, "ℹ️".data, 0x3498DB),
    ("pause_resume".data, "Pause/Resume".data, "⏸️".data, 0x3498DB),
    ("pp".data, "Post-processing started".data, "🔧".data, 0x3498DB),
    ("disk_full".data, "Disk full".data, "💥".data, 0xF1C40F),
    ("other".data, "Other".data, "ℹ️".data, 0x3498DB) ]

/-- Python `EVENT_MAP.get(ntype, (ntype.capitalize(), "ℹ️", 0x3498DB))`. -/
def eventEntry (ntype : Chars) : Chars × Chars × Int :=
  (EVENT_MAP.lookup ntype).getD (pyCapitalize ntype, "ℹ️".data, 0x3498DB)

/-- The three normalized keys recognised by `extract_fields_from_message`. -/
def fieldKeys : List Chars := ["category".data, "download status".data, "status".data]

/-- Python dictionary assignment `d[k] = v` for string-keyed dicts:
replace the value in place when the key exists, append otherwise. -/
def dictInsert (d : List (Chars × Chars)) (k v : Chars) : List (Chars × Chars) :=
  if d.any (fun p => p.1 == k) then d.map (fun p => if p.1 == k then (k, v) else p)
  else d ++ [(k, v)]

/-- Python `d.get(k)` for string-keyed dicts. -/
def dictLookup (d : List (Chars × Chars)) (k : Chars) : Option Chars :=
  List.lookup k d

/-- One iteration of the line loop of `extract_fields_from_message`:
the accumulator is (kept lines, field dict). -/
def extractStep (acc : List Chars × List (Chars × Chars)) (line : Chars) :
    List Chars × List (Chars × Chars) :=
  match splitFirstColon line with
  | some kv =>
    let k0 := pyLower (pyStrip kv.1)
    let v0 := pyStrip kv.2
    if fieldKeys.contains k0 then (acc.1, dictInsert acc.2 k0 v0)
    else (acc.1 ++ [line], acc.2)
  | none => (acc.1 ++ [line], acc.2)

/-- extract_fields_from_message of the script: scan the message line by line,
move `category` / `download status` / `status` lines into a field dict (last
assignment wins), rejoin the remaining lines and strip the result. -/
def extract_fields_from_message (msg : Chars) : Chars × List (Chars × Chars) :=
  let r := (pySplitlines msg).foldl extractStep ([], [])
  (pyStrip (joinNL r.1), r.2)

/-- color_emoji_for_color of the script. -/
def color_emoji_for_color (color : Int) : Chars :=
  if color = 0xF39C12 ∨ (0xF00000 ≤ color ∧ color ≤ 0xFFFF00) then "🟠".data
  else if color = 0x2ECC71 ∨ (0x00FF00 ≤ color ∧ color ≤ 0x33FF33) then "🟢".data
  else if color = 0xE74C3C ∨ (0xFF0000 ≤ color ∧ color ≤ 0xFF5555) then "🔴".data
  else if color = 0xF1C40F then "🟡".data
  else if color = 0x3498DB then "🔵".data
  else "▫️".data

/-- Python float modulo `hp % 2` for the HSL hue segment, over ℚ. -/
def pyMod2 (q : ℚ) : ℚ := q - 2 * ⌊q / 2⌋

/-- Python `round` (banker's rounding, round half to even), over ℚ. -/
def pyRound (q : ℚ) : ℤ :=
  let f : ℤ := ⌊q⌋
  let r : ℚ := q - f
  if r < 1 / 2 then f
  else if 1 / 2 < r then f + 1
  else if f % 2 = 0 then f else f + 1

/-- hsl_to_rgb_int, the helper nested inside make_embed in the script. -/
def hsl_to_rgb_int (h s l : ℚ) : ℤ :=
  let c := (1 - |2 * l - 1|) * s
  let hp := h / 60
  let x := c * (1 - |pyMod2 hp - 1|)
  let rgb1 : ℚ × ℚ × ℚ :=
    if 0 ≤ hp ∧ hp < 1 then (c, x, 0)
    else if 1 ≤ hp ∧ hp < 2 then (x, c, 0)
    else if 2 ≤ hp ∧ hp < 3 then (0, c, x)
    else if 3 ≤ hp ∧ hp < 4 then (0, x, c)
    else if 4 ≤ hp ∧ hp < 5 then (x, 0, c)
    else (c, 0, x)
  let m := l - c / 2
  pyRound ((rgb1.1 + m) * 255) * 2 ^ 16 + pyRound ((rgb1.2.1 + m) * 255) * 2 ^ 8 +
    pyRound ((rgb1.2.2 + m) * 255)

/-- One labeled field of the embed (dict with name/value/inline keys). -/
structure EmbedField where
  name : Chars
  value : Chars
  inline : Bool
deriving DecidableEq

/-- Author block of the embed. -/
structure EmbedAuthor where
  name : Chars
  icon_url : Chars
deriving DecidableEq

/-- The notification document built by make_embed.  `footer` holds the text of
the footer dict; `thumbnail` holds the url of the thumbnail dict, and is
`none` exactly when the key is absent. -/
structure Embed where
  title : Chars
  description : Chars
  color : Int
  timestamp : Chars
  author : EmbedAuthor
  fields : List EmbedField
  footer : Chars
  thumbnail : Option Chars
deriving DecidableEq

/-- make_embed of the script.  `now` stands for the value of
`datetime.datetime.utcnow().isoformat()`, made an explicit argument because
the embedding is pure. -/
def make_embed (now ntype title body : Chars) (urls : List Chars) : Embed :=
  let entry := eventEntry ntype
  let label := entry.1
  let emoji := entry.2.1
  let color := entry.2.2
  let er := extract_fields_from_message body
  let description := er.1
  let parsed_fields := er.2
  let category := pyGetOr (dictLookup parsed_fields "category".data) ntype
  let download_status :=
    pyGetOr (dictLookup parsed_fields "download status".data)
      (pyGetOr (dictLookup parsed_fields "status".data) ntype)
  let circle := color_emoji_for_color color
  let title_text := "SABnzbd: ".data ++ emoji ++ " ".data ++ label
  let category_value := circle ++ " ".data ++ category
  let download_status_value := emoji ++ " ".data ++ download_status
  let hsla_color_int := hsl_to_rgb_int 37 1 (1 / 2)
  let final_color := if color = 0 then hsla_color_int else color
  { title := title_text
    description := if description.isEmpty then title else description
    color := final_color
    timestamp := now
    author := { name := "SABnzbd".data, icon_url := DEFAULT_SAB_ICON }
    fields :=
      [ { name := "Category".data, value := category_value, inline := true },
        { name := "Download Status".data, value := download_status_value, inline := true } ]
    footer := "SABnzbd Notification".data
    thumbnail := match urls with | [] => none | u :: _ => some u }

/-- The JSON payload posted by send_webhook; `username` / `avatar_url` are
`none` exactly when the key is absent. -/
structure WebhookPayload where
  embeds : List Embed
  username : Option Chars
  avatar_url : Option Chars
deriving DecidableEq

/-- Payload built at the top of send_webhook: `embeds` always, `username` and
`avatar_url` only when truthy. -/
def buildPayload (embed : Embed) (username avatar_url : Option Chars) : WebhookPayload :=
  { embeds := [embed]
    username := if pyTruthy username then username else none
    avatar_url := if pyTruthy avatar_url then avatar_url else none }

/-- What the HTTP transport would do if called: `urlopen` returns a status
code, raises an HTTPError, or raises some other exception. -/
inductive HttpResult where
  | response (code : Nat) (body : Chars)
  | httpError (code : Nat) (reason : Chars) (body : Chars)
  | exn (desc : Chars)
deriving DecidableEq

/-- Result of send_webhook: the returned boolean, the number of transport
calls performed, and the payload that was built. -/
structure SendResult where
  ok : Bool
  networkCalls : Nat
  payload : WebhookPayload
deriving DecidableEq

/-- send_webhook of the script.  In debug mode the payload is printed and
`True` is returned with no transport call; otherwise exactly one transport
call is classified: 2xx → `True`, any other status or exception → `False`. -/
def send_webhook (tr : HttpResult) (webhook_url : Chars) (username avatar_url : Option Chars)
    (embed : Embed) (debug : Bool) : SendResult :=
  let payload := buildPayload embed username avatar_url
  if debug then { ok := true, networkCalls := 0, payload := payload }
  else
    match tr with
    | .response code _ =>
      { ok := decide (200 ≤ code ∧ code < 300), networkCalls := 1, payload := payload }
    | .httpError _ _ _ => { ok := false, networkCalls := 1, payload := payload }
    | .exn _ => { ok := false, networkCalls := 1, payload := payload }

/-- The delivery outcome taxonomy of the specification. -/
inductive DeliveryOutcome where
  | sent : DeliveryOutcome
  | rejected (code : Nat) (body : Chars) : DeliveryOutcome
  | transportFailure (desc : Chars) : DeliveryOutcome
deriving DecidableEq

/-- Classification of a transport result into the specification's
DeliveryOutcome taxonomy, following send_webhook's branches. -/
def webhookOutcome : HttpResult → DeliveryOutcome
  | .response code body =>
    if 200 ≤ code ∧ code < 300 then .sent else .rejected code body
  | .httpError code _ body => .rejected code body
  | .exn desc => .transportFailure desc

/-- Comma-splitting of the url arguments in main (argv[3:]). -/
def splitCommas (args : List Chars) : List Chars :=
  (args.map (fun u => ((splitComma u).map pyStrip).filter (fun p => !p.isEmpty))).flatten

/-- main of the script, from the webhook check onwards: `webhook` is the
configured DEFAULT_WEBHOOK value, `argv` the positional arguments, `now` and
`tr` the external time and transport effects.  Returns the process exit code.
(Named pyMain because Lean reserves the name main.) -/
def pyMain (webhook : Chars) (argv : List Chars) (now : Chars) (tr : HttpResult) : Nat :=
  if webhook.isEmpty then 2
  else if argv.length < 3 then 1
  else
    match argv with
    | a0 :: a1 :: a2 :: rest =>
      let ntype := pyLower (pyStrip a0)
      let urls := splitCommas rest
      let embed := make_embed now ntype a1 a2 urls
      let r := send_webhook tr webhook (some DEFAULT_USERNAME) DEFAULT_AVATAR embed DEFAULT_DEBUG
      if r.ok then 0 else 1
    | _ => 1

/-- The specification's documented HSL→RGB formula, written from the spec's
words: chroma, hue segment, secondary component, six 60°-wide cases,
lightness offset, round each channel, pack as bitwise or of shifted
channels.  Used to compare the script's helper against the documented
contract. -/
def hslSpecFormula (h s l : ℚ) : ℤ :=
  let c := (1 - |2 * l - 1|) * s
  let hp := h / 60
  let x := c * (1 - |pyMod2 hp - 1|)
  let rgb1 : ℚ × ℚ × ℚ :=
    if 0 ≤ hp ∧ hp < 1 then (c, x, 0)
    else if 1 ≤ hp ∧ hp < 2 then (x, c, 0)
    else if 2 ≤ hp ∧ hp < 3 then (0, c, x)
    else if 3 ≤ hp ∧ hp < 4 then (0, x, c)
    else if 4 ≤ hp ∧ hp < 5 then (x, 0, c)
    else (c, 0, x)
  let m := l - c / 2
  let r := (round ((rgb1.1 + m) * 255)).toNat
  let g := (round ((rgb1.2.1 + m) * 255)).toNat
  let b := (round ((rgb1.2.2 + m) * 255)).toNat
  Int.ofNat (Nat.lor (Nat.lor (r <<< 16) (g <<< 8)) b)

/-- Specification-side predicate: does this line get extracted into the field
map?  True exactly when the line has a colon and the text before the first
colon, trimmed and lower-cased, is one of the three recognised keys. -/
def isFieldLine (l : Chars) : Bool :=
  match splitFirstColon l with
  | some kv => fieldKeys.contains (pyLower (pyStrip kv.1))
  | none => false

/-- Specification-side view of one line: the stripped value this line
contributes for normalized key `k`, if any. -/
def lineFieldValue (k l : Chars) : Option Chars :=
  match splitFirstColon l with
  | some kv => if pyLower (pyStrip kv.1) == k then some (pyStrip kv.2) else none
  | none => none

/-- Specification-side resolution of a key over a list of lines: the value of
the last line matching `k` (last-seen wins). -/
def lastFieldValue (k : Chars) (ls : List Chars) : Option Chars :=
  (ls.filterMap (lineFieldValue k)).getLast?

/-- First-some choice on options (used to state the last-seen-wins law). -/
def optOr (a b : Option Chars) : Option Chars :=
  match a with
  | some v => some v
  | none => b

/-- Specification-side choice: the extracted value when it is present and
non-empty, else the fallback. -/
def specOrElse (o : Option Chars) (dflt : Chars) : Chars :=
  match o with
  | some v => if v = [] then dflt else v
  | none => dflt

/-- Specification-side resolution of the Category field (the amended rule):
the extracted value when present and non-empty, else the raw kind string. -/
def specResolveCategory (f : List (Chars × Chars)) (kind : Chars) : Chars :=
  specOrElse (dictLookup f "category".data) kind

/-- Specification-side resolution of the Download Status field (the amended
rule): the first present-and-non-empty value among `download status` and
`status`, else the raw kind string. -/
def specResolveStatus (f : List (Chars × Chars)) (kind : Chars) : Chars :=
  specOrElse (dictLookup f "download status".data)
    (specOrElse (dictLookup f "status".data) kind)

/-- Chunk-level left trim: drop leading all-whitespace lines, then trim the
first surviving line from the left.  Mirrors what `pyStrip` does to a
newline-joined list of break-free lines. -/
def leftTrimChunks : List Chars → List Chars
  | [] => []
  | c :: cs =>
    if (c.dropWhile isPySpace).isEmpty then leftTrimChunks cs
    else c.dropWhile isPySpace :: cs

/-- Reverse a chunk list together with each chunk (conjugation that turns a
right trim into a left trim). -/
def revmap (cs : List Chars) : List Chars := (cs.map List.reverse).reverse

/-- Chunk-level strip: left trim, then right trim via conjugation. -/
def stripChunks (cs : List Chars) : List Chars :=
  revmap (leftTrimChunks (revmap (leftTrimChunks cs)))

lemma pyMod2_small {q : ℚ} (h0 : 0 ≤ q) (h2 : q < 2) : pyMod2 q = q := by
  rw [pyMod2]
  have : ⌊q / 2⌋ = 0 := by
    rw [Int.floor_eq_zero_iff]
    constructor
    · positivity
    · linarith
  rw [this]
  push_cast
  ring

lemma pyRound_eval (q : ℚ) (n : ℤ) (hf : ⌊q⌋ = n) (hr : q - n < 1 / 2) : pyRound q = n := by
  rw [pyRound]
  simp only [hf]
  rw [if_pos hr]

lemma hsl_code_val : hsl_to_rgb_int 37 1 (1 / 2) = 16751872 := by
  rw [hsl_to_rgb_int]
  have hm : pyMod2 ((37 : ℚ) / 60) = 37 / 60 := pyMod2_small (by norm_num) (by norm_num)
  simp only [hm]
  rw [if_pos (by constructor <;> norm_num : (0:ℚ) ≤ 37 / 60 ∧ (37:ℚ) / 60 < 1)]
  have habs1 : |2 * (1 / 2 : ℚ) - 1| = 0 := by norm_num
  have habs2 : |(37 : ℚ) / 60 - 1| = 23 / 60 := by
    rw [abs_of_nonpos (by norm_num)]
    norm_num
  rw [habs1, habs2]
  have h1 : pyRound (((1 - 0) * 1 + (1 / 2 - (1 - 0) * 1 / 2)) * 255 : ℚ) = 255 := by
    apply pyRound_eval <;> norm_num
  have h2 : pyRound (((1 - 0) * 1 * (1 - 23 / 60) + (1 / 2 - (1 - 0) * 1 / 2)) * 255 : ℚ) = 157 := by
    apply pyRound_eval <;> norm_num
  have h3 : pyRound ((0 + (1 / 2 - (1 - 0) * 1 / 2)) * 255 : ℚ) = 0 := by
    apply pyRound_eval <;> norm_num
  rw [h1, h2, h3]
  norm_num

lemma hsl_spec_val : hslSpecFormula 37 1 (1 / 2) = 16751872 := by
  rw [hslSpecFormula]
  have hm : pyMod2 ((37 : ℚ) / 60) = 37 / 60 := pyMod2_small (by norm_num) (by norm_num)
  simp only [hm]
  rw [if_pos (by constructor <;> norm_num : (0:ℚ) ≤ 37 / 60 ∧ (37:ℚ) / 60 < 1)]
  have habs1 : |2 * (1 / 2 : ℚ) - 1| = 0 := by norm_num
  have habs2 : |(37 : ℚ) / 60 - 1| = 23 / 60 := by
    rw [abs_of_nonpos (by norm_num)]
    norm_num
  rw [habs1, habs2]
  have h1 : round (((1 - 0) * 1 + (1 / 2 - (1 - 0) * 1 / 2)) * 255 : ℚ) = 255 := by
    rw [round_eq]
    norm_num
  have h2 : round (((1 - 0) * 1 * (1 - 23 / 60) + (1 / 2 - (1 - 0) * 1 / 2)) * 255 : ℚ) = 157 := by
    rw [round_eq]
    norm_num
  have h3 : round ((0 + (1 / 2 - (1 - 0) * 1 / 2)) * 255 : ℚ) = 0 := by
    rw [round_eq]
    norm_num
  rw [h1, h2, h3]
  decide

lemma char_toNat_ofNat {n : Nat} (h : n.isValidChar) : (Char.ofNat n).toNat = n := by
  rw [Char.ofNat, dif_pos h]
  rfl

lemma isPySpace_false_of_range (c : Char) (h1 : 65 ≤ c.toNat) (h2 : c.toNat ≤ 122) :
    isPySpace c = false := by
  rw [isPySpace]
  simp only [Bool.or_eq_false_iff, decide_eq_false_iff_not]
  omega

lemma toLower_of_upper (c : Char) (h : 65 ≤ c.toNat ∧ c.toNat ≤ 90) :
    (Char.toLower c).toNat = c.toNat + 32 := by
  simp only [Char.toLower, ge_iff_le]
  rw [if_pos h]
  exact char_toNat_ofNat (Or.inl (by omega))

lemma toLower_of_not_upper (c : Char) (h : ¬(65 ≤ c.toNat ∧ c.toNat ≤ 90)) :
    Char.toLower c = c := by
  simp only [Char.toLower, ge_iff_le]
  split
  · next hcond => exact absurd hcond h
  · rfl

lemma isPySpace_toLower (c : Char) : isPySpace (Char.toLower c) = isPySpace c := by
  by_cases h : 65 ≤ c.toNat ∧ c.toNat ≤ 90
  · rw [isPySpace_false_of_range c h.1 (by omega)]
    have ht := toLower_of_upper c h
    exact isPySpace_false_of_range _ (by omega) (by omega)
  · rw [toLower_of_not_upper c h]

lemma toLower_toLower (c : Char) : Char.toLower (Char.toLower c) = Char.toLower c := by
  by_cases h : 65 ≤ c.toNat ∧ c.toNat ≤ 90
  · have ht := toLower_of_upper c h
    exact toLower_of_not_upper _ (by omega)
  · rw [toLower_of_not_upper c h, toLower_of_not_upper c h]

lemma pyLower_idem (s : Chars) : pyLower (pyLower s) = pyLower s := by
  simp only [pyLower, List.map_map]
  exact List.map_congr_left fun c _ => toLower_toLower c

lemma pyStrip_pyLower_comm (s : Chars) : pyStrip (pyLower s) = pyLower (pyStrip s) := by
  have hped : isPySpace ∘ Char.toLower = isPySpace := funext fun c => isPySpace_toLower c
  simp only [pyStrip, pyLower, List.dropWhile_map, hped, ← List.map_reverse, List.dropWhile_map]

lemma dropWhile_head_false {p : Char → Bool} {l : Chars} {a : Char}
    (h : l.head? = some a) (hp : p a = false) : l.dropWhile p = l := by
  cases l with
  | nil => rfl
  | cons x xs =>
    simp only [List.head?_cons, Option.some.injEq] at h
    subst h
    simp [List.dropWhile_cons, hp]

lemma head?_dropWhile_false (p : Char → Bool) (l : Chars) {a : Char}
    (h : (l.dropWhile p).head? = some a) : p a = false := by
  induction l with
  | nil => simp at h
  | cons x xs ih =>
    rw [List.dropWhile_cons] at h
    by_cases hx : p x = true
    · rw [if_pos hx] at h
      exact ih h
    · rw [if_neg hx] at h
      simp only [List.head?_cons, Option.some.injEq] at h
      subst h
      exact Bool.eq_false_iff.mpr hx

lemma getLast?_dropWhile (p : Char → Bool) (l : Chars) (h : l.dropWhile p ≠ []) :
    (l.dropWhile p).getLast? = l.getLast? := by
  induction l with
  | nil => simp at h
  | cons x xs ih =>
    rw [List.dropWhile_cons]
    rw [List.dropWhile_cons] at h
    by_cases hx : p x = true
    · rw [if_pos hx] at h ⊢
      rw [ih h]
      have hxs : xs ≠ [] := by
        intro he
        subst he
        simp at h
      cases xs with
      | nil => simp at hxs
      | cons b t => rw [List.getLast?_cons_cons]
    · rw [if_neg hx]

lemma head?_of_ne_nil {l : Chars} (h : l ≠ []) : ∃ a, l.head? = some a := by
  cases l with
  | nil => exact absurd rfl h
  | cons a t => exact ⟨a, rfl⟩

lemma pyStrip_rev_stripped (s : Chars) :
    (pyStrip s).reverse.dropWhile isPySpace = (pyStrip s).reverse := by
  rw [pyStrip, List.reverse_reverse]
  by_cases hv : (s.dropWhile isPySpace).reverse.dropWhile isPySpace = []
  · rw [hv]
    rfl
  · obtain ⟨a, ha⟩ := head?_of_ne_nil hv
    exact dropWhile_head_false ha (head?_dropWhile_false _ _ ha)

lemma pyStrip_head_stripped (s : Chars) :
    (pyStrip s).dropWhile isPySpace = pyStrip s := by
  by_cases hv : (s.dropWhile isPySpace).reverse.dropWhile isPySpace = []
  · rw [pyStrip, hv]
    rfl
  · have hu : s.dropWhile isPySpace ≠ [] := by
      intro he
      apply hv
      rw [he]
      rfl
    obtain ⟨b, hb⟩ := head?_of_ne_nil hu
    have hh : (pyStrip s).head? = some b := by
      rw [pyStrip, List.head?_reverse, getLast?_dropWhile _ _ hv, List.getLast?_reverse]
      exact hb
    exact dropWhile_head_false hh (head?_dropWhile_false _ _ hb)

lemma pyStrip_idem (s : Chars) : pyStrip (pyStrip s) = pyStrip s := by
  rw [pyStrip, pyStrip_head_stripped, pyStrip_rev_stripped, List.reverse_reverse]

lemma norm_fixpoint (s : Chars) :
    pyLower (pyStrip (pyLower (pyStrip s))) = pyLower (pyStrip s) := by
  rw [pyStrip_pyLower_comm, pyStrip_idem, pyLower_idem]

lemma send_ok_iff (tr : HttpResult) (w : Chars) (u a : Option Chars) (e : Embed) :
    ((send_webhook tr w u a e false).ok = true ↔ webhookOutcome tr = DeliveryOutcome.sent) := by
  cases tr with
  | response code body =>
    simp only [send_webhook, webhookOutcome, if_neg (Bool.false_ne_true)]
    by_cases h : 200 ≤ code ∧ code < 300
    · simp [h]
    · simp [h]
  | httpError code reason body => simp [send_webhook, webhookOutcome]
  | exn desc => simp [send_webhook, webhookOutcome]

lemma pyGetOr_eq_specOrElse (o : Option Chars) (d : Chars) : pyGetOr o d = specOrElse o d := by
  cases o with
  | none => rfl
  | some v => cases v <;> simp [pyGetOr, specOrElse]

lemma lookup_map_other (d : List (Chars × Chars)) (k0 v k : Chars) (hk : k ≠ k0) :
    List.lookup k (d.map fun p => if p.1 == k0 then (k0, v) else p) = List.lookup k d := by
  induction d with
  | nil => rfl
  | cons p d' ih =>
    obtain ⟨pk, pv⟩ := p
    rw [List.map_cons]
    by_cases hp : pk = k0
    · rw [if_pos (by simpa using hp), List.lookup_cons, List.lookup_cons,
        show (k == k0) = false from by simp [hk],
        show (k == pk) = false from by simp [hp ▸ hk]]
      exact ih
    · rw [if_neg (by simpa using hp), List.lookup_cons, List.lookup_cons]
      cases k == pk with
      | true => rfl
      | false => exact ih

lemma dictLookup_dictInsert (d : List (Chars × Chars)) (k0 v k : Chars) :
    dictLookup (dictInsert d k0 v) k = if k = k0 then some v else dictLookup d k := by
  induction d with
  | nil =>
    rw [dictInsert]
    simp only [List.any_nil, Bool.false_eq_true, if_false, List.nil_append]
    rw [dictLookup, List.lookup_cons]
    by_cases hk : k = k0
    · rw [if_pos hk, show (k == k0) = true from by simp [hk]]
    · rw [if_neg hk, show (k == k0) = false from by simp [hk]]
      rfl
  | cons p d' ih =>
    obtain ⟨pk, pv⟩ := p
    rw [dictInsert]
    by_cases hp : pk = k0
    · rw [if_pos (by simp [hp] : ((pk, pv) :: d').any (fun p => p.1 == k0) = true),
        List.map_cons, if_pos (by simpa using hp)]
      rw [dictLookup, List.lookup_cons]
      by_cases hk : k = k0
      · rw [if_pos hk, show (k == k0) = true from by simp [hk]]
      · rw [if_neg hk, show (k == k0) = false from by simp [hk]]
        rw [dictLookup, List.lookup_cons, show (k == pk) = false from by simp [hp ▸ hk]]
        exact lookup_map_other d' k0 v k hk
    · by_cases hany : d'.any (fun p => p.1 == k0) = true
      · rw [if_pos (by simp [hany] : ((pk, pv) :: d').any (fun p => p.1 == k0) = true),
          List.map_cons, if_neg (by simpa using hp)]
        rw [dictInsert, if_pos hany] at ih
        rw [dictLookup, List.lookup_cons]
        by_cases hk2 : k = pk
        · rw [show (k == pk) = true from by simp [hk2],
            if_neg (fun he => hp ((hk2.symm.trans he) ▸ rfl)), dictLookup, List.lookup_cons,
            show (k == pk) = true from by simp [hk2]]
        · rw [show (k == pk) = false from by simp [hk2]]
          rw [dictLookup] at ih
          rw [ih]
          simp only [dictLookup, List.lookup_cons, show (k == pk) = false from by simp [hk2]]
      · rw [if_neg (by simp [hp, hany] : ¬((pk, pv) :: d').any (fun p => p.1 == k0) = true),
          List.cons_append]
        rw [dictInsert, if_neg hany] at ih
        rw [dictLookup, List.lookup_cons]
        by_cases hk2 : k = pk
        · rw [show (k == pk) = true from by simp [hk2],
            if_neg (fun he => hp ((hk2.symm.trans he) ▸ rfl)), dictLookup, List.lookup_cons,
            show (k == pk) = true from by simp [hk2]]
        · rw [show (k == pk) = false from by simp [hk2]]
          rw [dictLookup] at ih
          rw [ih]
          simp only [dictLookup, List.lookup_cons, show (k == pk) = false from by simp [hk2]]

lemma optOr_none_right (a : Option Chars) : optOr a none = a := by
  cases a <;> rfl

lemma optOr_assoc (a b c : Option Chars) : optOr (optOr a b) c = optOr a (optOr b c) := by
  cases a <;> rfl

lemma getLast?_filterMap_cons (f : Chars → Option Chars) (l : Chars) (ls : List Chars) :
    (List.filterMap f (l :: ls)).getLast? = optOr ((List.filterMap f ls).getLast?) (f l) := by
  rw [List.filterMap_cons]
  cases hf : f l with
  | none => rw [optOr_none_right]
  | some a =>
    cases hm : List.filterMap f ls with
    | nil => rfl
    | cons b t => rw [List.getLast?_cons_cons]; rfl

lemma contains_of_mem {k : Chars} (h : k ∈ fieldKeys) : fieldKeys.contains k = true := by
  exact List.elem_eq_true_of_mem h

lemma foldl_extract_fst (ls : List Chars) (keep : List Chars) (d : List (Chars × Chars)) :
    (ls.foldl extractStep (keep, d)).1 = keep ++ ls.filter (fun l => !isFieldLine l) := by
  induction ls generalizing keep d with
  | nil => simp
  | cons l ls ih =>
    rw [List.foldl_cons, List.filter_cons]
    cases hc : splitFirstColon l with
    | none =>
      have hf : isFieldLine l = false := by rw [isFieldLine, hc]
      have hstep : extractStep (keep, d) l = (keep ++ [l], d) := by simp [extractStep, hc]
      rw [hstep, ih, hf]
      simp
    | some kv =>
      by_cases hcont : fieldKeys.contains (pyLower (pyStrip kv.1)) = true
      · have hmem : pyLower (pyStrip kv.1) ∈ fieldKeys := List.mem_of_elem_eq_true hcont
        have hf : isFieldLine l = true := by rw [isFieldLine, hc]; exact hcont
        have hstep : extractStep (keep, d) l = (keep, dictInsert d (pyLower (pyStrip kv.1)) (pyStrip kv.2)) := by
          simp [extractStep, hc, hmem]
        rw [hstep, ih, hf]
        simp
      · have hmem : pyLower (pyStrip kv.1) ∉ fieldKeys := fun hm => hcont (contains_of_mem hm)
        have hf : isFieldLine l = false := by
          rw [isFieldLine, hc]
          exact Bool.eq_false_iff.mpr hcont
        have hstep : extractStep (keep, d) l = (keep ++ [l], d) := by
          simp [extractStep, hc, hmem]
        rw [hstep, ih, hf]
        simp

lemma foldl_extract_nonfield (ls : List Chars) (keep : List Chars) (d : List (Chars × Chars))
    (h : ∀ l ∈ ls, isFieldLine l = false) :
    ls.foldl extractStep (keep, d) = (keep ++ ls, d) := by
  induction ls generalizing keep with
  | nil => simp
  | cons l ls ih =>
    have hl : isFieldLine l = false := h l (List.mem_cons_self l ls)
    have hstep : extractStep (keep, d) l = (keep ++ [l], d) := by
      rw [isFieldLine] at hl
      cases hc : splitFirstColon l with
      | none => simp [extractStep, hc]
      | some kv =>
        rw [hc] at hl
        simp only [] at hl
        have hmem : pyLower (pyStrip kv.1) ∉ fieldKeys :=
          fun hm => (Bool.eq_false_iff.mp hl) (contains_of_mem hm)
        simp [extractStep, hc, hmem]
    rw [List.foldl_cons, hstep, ih (keep ++ [l]) (fun x hx => h x (List.mem_cons_of_mem l hx))]
    simp

lemma foldl_extract_lookup (ls : List Chars) (keep : List Chars) (d : List (Chars × Chars))
    (k : Chars) (hk : k ∈ fieldKeys) :
    dictLookup ((ls.foldl extractStep (keep, d)).2) k =
      optOr (lastFieldValue k ls) (dictLookup d k) := by
  induction ls generalizing keep d with
  | nil => rfl
  | cons l ls ih =>
    rw [List.foldl_cons]
    have hlast : lastFieldValue k (l :: ls) =
        optOr (lastFieldValue k ls) (lineFieldValue k l) := by
      rw [lastFieldValue, lastFieldValue]
      exact getLast?_filterMap_cons _ _ _
    cases hc : splitFirstColon l with
    | none =>
      have hstep : extractStep (keep, d) l = (keep ++ [l], d) := by simp [extractStep, hc]
      have hline : lineFieldValue k l = none := by rw [lineFieldValue, hc]
      rw [hstep, ih, hlast, hline, optOr_none_right]
    | some kv =>
      by_cases hcont : fieldKeys.contains (pyLower (pyStrip kv.1)) = true
      · have hmem : pyLower (pyStrip kv.1) ∈ fieldKeys := List.mem_of_elem_eq_true hcont
        have hstep : extractStep (keep, d) l =
            (keep, dictInsert d (pyLower (pyStrip kv.1)) (pyStrip kv.2)) := by
          simp [extractStep, hc, hmem]
        have hline : lineFieldValue k l =
            if pyLower (pyStrip kv.1) == k then some (pyStrip kv.2) else none := by
          rw [lineFieldValue, hc]
        rw [hstep, ih, hlast, hline]
        by_cases hkk : pyLower (pyStrip kv.1) = k
        · rw [if_pos (by simp [hkk]), dictLookup_dictInsert, if_pos hkk.symm, optOr_assoc]
          rfl
        · rw [if_neg (by simp [hkk]), optOr_none_right, dictLookup_dictInsert,
            if_neg (fun he => hkk he.symm)]
      · have hmem : pyLower (pyStrip kv.1) ∉ fieldKeys := fun hm => hcont (contains_of_mem hm)
        have hstep : extractStep (keep, d) l = (keep ++ [l], d) := by
          simp [extractStep, hc, hmem]
        have hline : lineFieldValue k l = none := by
          simp only [lineFieldValue, hc]
          rw [if_neg]
          intro hbeq
          exact hcont ((beq_iff_eq.mp hbeq) ▸ contains_of_mem hk)
        rw [hstep, ih, hlast, hline, optOr_none_right]

lemma aux_break {c : Char} {rest : Chars}
    (hne : ∀ r1, c = '\r' → rest = '\n' :: r1 → False) (h : isLineBreak c = true)
    (cur : Chars) :
    pySplitlinesAux (c :: rest) cur = cur.reverse :: pySplitlinesAux rest [] := by
  rw [pySplitlinesAux.eq_def]
  split
  · next heq => exact absurd heq (by simp)
  · next r1 heq hcur =>
    injection hcur with h1 h2
    exact (hne heq h1 h2).elim
  · next h1 =>
    injection h1 with hc hr
    subst hc
    subst hr
    rw [if_pos h]

lemma aux_nonbreak {c : Char} (h : isLineBreak c = false) (rest cur : Chars) :
    pySplitlinesAux (c :: rest) cur = pySplitlinesAux rest (c :: cur) := by
  rw [pySplitlinesAux.eq_def]
  split
  · next heq => exact absurd heq (by simp)
  · next r1 heq hcur =>
    injection hcur with h1 h2
    rw [h1] at h
    exact absurd h (by decide)
  · next h1 =>
    injection h1 with hc hr
    subst hc
    subst hr
    rw [if_neg (by simp [h])]

lemma aux_nl (rest cur : Chars) :
    pySplitlinesAux ('\n' :: rest) cur = cur.reverse :: pySplitlinesAux rest [] :=
  aux_break (fun r1 he _ => absurd he (by decide)) (by decide) cur

lemma mem_aux_noBreak : ∀ (s cur : Chars), (∀ c ∈ cur, isLineBreak c = false) →
    ∀ l ∈ pySplitlinesAux s cur, ∀ c ∈ l, isLineBreak c = false := by
  intro s cur
  induction s, cur using pySplitlinesAux.induct with
  | case1 cur hem =>
    intro hcur l hl
    rw [pySplitlinesAux.eq_def] at hl
    simp only [if_pos hem] at hl
    exact absurd hl (List.not_mem_nil l)
  | case2 cur hem =>
    intro hcur l hl
    rw [pySplitlinesAux.eq_def] at hl
    simp only [if_neg hem, List.mem_singleton] at hl
    subst hl
    intro c hc
    exact hcur c (List.mem_reverse.mp hc)
  | case3 rest cur ih =>
    intro hcur l hl
    rw [show pySplitlinesAux ('\r' :: '\n' :: rest) cur = cur.reverse :: pySplitlinesAux rest []
        from rfl] at hl
    rcases List.mem_cons.mp hl with hl | hl
    · subst hl
      intro c hc
      exact hcur c (List.mem_reverse.mp hc)
    · exact ih (by simp) l hl
  | case4 c rest cur hne hbr ih =>
    intro hcur l hl
    rw [aux_break hne hbr] at hl
    rcases List.mem_cons.mp hl with hl | hl
    · subst hl
      intro c2 hc2
      exact hcur c2 (List.mem_reverse.mp hc2)
    · exact ih (by simp) l hl
  | case5 c rest cur hne hbr ih =>
    intro hcur l hl
    rw [aux_nonbreak (Bool.not_eq_true _ ▸ hbr : isLineBreak c = false)] at hl
    refine ih ?_ l hl
    intro c2 hc2
    rcases List.mem_cons.mp hc2 with hc2 | hc2
    · subst hc2
      exact Bool.not_eq_true _ ▸ hbr
    · exact hcur c2 hc2

lemma noBreak_lines (msg l : Chars) (hl : l ∈ pySplitlines msg) :
    ∀ c ∈ l, isLineBreak c = false :=
  mem_aux_noBreak msg [] (by simp) l hl

lemma aux_append (d : Chars) (s cur : Chars) (hd : ∀ c ∈ d, isLineBreak c = false) :
    pySplitlinesAux (d ++ s) cur = pySplitlinesAux s (d.reverse ++ cur) := by
  induction d generalizing cur with
  | nil => simp
  | cons c d' ih =>
    rw [List.cons_append, aux_nonbreak (hd c (List.mem_cons_self c d')) _ _,
      ih _ (fun x hx => hd x (List.mem_cons_of_mem c hx))]
    congr 1
    simp

lemma aux_nil (cur : Chars) :
    pySplitlinesAux [] cur = if cur.isEmpty then [] else [cur.reverse] := rfl

lemma pySplitlines_joinNL (ds : List Chars)
    (hnb : ∀ l ∈ ds, ∀ c ∈ l, isLineBreak c = false)
    (hlast : ∀ h, ds.getLast? = some h → h ≠ []) :
    pySplitlines (joinNL ds) = ds := by
  induction ds with
  | nil => rfl
  | cons d ds' ih =>
    cases ds' with
    | nil =>
      have hd : d ≠ [] := hlast d rfl
      have ha := aux_append d [] [] (by simpa using hnb d (List.mem_cons_self d []))
      rw [List.append_nil] at ha
      rw [show joinNL [d] = d from rfl, pySplitlines, ha, aux_nil,
        if_neg (by simp [hd])]
      simp
    | cons d2 ds'' =>
      rw [show joinNL (d :: d2 :: ds'') = d ++ '\n' :: joinNL (d2 :: ds'') from rfl,
        pySplitlines,
        aux_append d ('\n' :: joinNL (d2 :: ds'')) [] (hnb d (List.mem_cons_self d _)),
        aux_nl]
      simp only [List.append_nil, List.reverse_reverse]
      rw [show pySplitlinesAux (joinNL (d2 :: ds'')) [] = pySplitlines (joinNL (d2 :: ds'')) from rfl,
        ih (fun l hl => hnb l (List.mem_cons_of_mem d hl))
          (fun h he => hlast h (by rw [List.getLast?_cons_cons]; exact he))]

lemma ltrim_joinNL (cs : List Chars) :
    (joinNL cs).dropWhile isPySpace = joinNL (leftTrimChunks cs) := by
  induction cs with
  | nil => rfl
  | cons c cs' ih =>
    cases cs' with
    | nil =>
      rw [show joinNL [c] = c from rfl, leftTrimChunks]
      by_cases he : (c.dropWhile isPySpace).isEmpty = true
      · rw [if_pos he]
        exact List.isEmpty_iff.mp he
      · rw [if_neg he]
        rfl
    | cons c2 cs'' =>
      rw [show joinNL (c :: c2 :: cs'') = c ++ '\n' :: joinNL (c2 :: cs'') from rfl,
        List.dropWhile_append, leftTrimChunks]
      by_cases he : (c.dropWhile isPySpace).isEmpty = true
      · rw [if_pos he, if_pos he, List.dropWhile_cons,
          if_pos (by decide : isPySpace '\n' = true), ih]
      · rw [if_neg he, if_neg he]
        rfl

lemma joinNL_concat (xs : List Chars) (y : Chars) (h : xs ≠ []) :
    joinNL (xs ++ [y]) = joinNL xs ++ '\n' :: y := by
  induction xs with
  | nil => exact absurd rfl h
  | cons x xs' ih =>
    cases xs' with
    | nil => rfl
    | cons x2 xs'' =>
      rw [show joinNL ((x :: x2 :: xs'') ++ [y]) = x ++ '\n' :: joinNL ((x2 :: xs'') ++ [y]) from rfl,
        ih (by simp),
        show joinNL (x :: x2 :: xs'') = x ++ '\n' :: joinNL (x2 :: xs'') from rfl]
      simp

lemma reverse_joinNL (cs : List Chars) : (joinNL cs).reverse = joinNL (revmap cs) := by
  induction cs with
  | nil => rfl
  | cons c cs' ih =>
    cases cs' with
    | nil => rfl
    | cons c2 cs'' =>
      have hrm : revmap (c :: c2 :: cs'') = revmap (c2 :: cs'') ++ [c.reverse] := by
        rw [revmap, revmap, List.map_cons, List.reverse_cons]
      rw [show joinNL (c :: c2 :: cs'') = c ++ '\n' :: joinNL (c2 :: cs'') from rfl,
        List.reverse_append, List.reverse_cons, hrm,
        joinNL_concat _ _ (by simp [revmap]), ← ih]
      simp

lemma pyStrip_joinNL (cs : List Chars) : pyStrip (joinNL cs) = joinNL (stripChunks cs) := by
  rw [pyStrip, ltrim_joinNL, reverse_joinNL, ltrim_joinNL, reverse_joinNL, stripChunks]

lemma strip_cons_ws {c : Char} (hc : isPySpace c = true) (l : Chars) :
    pyStrip (c :: l) = pyStrip l := by
  rw [pyStrip, pyStrip, List.dropWhile_cons, if_pos hc]

lemma ws_ne_colon {c : Char} (hc : isPySpace c = true) : c ≠ ':' := by
  intro he
  rw [he] at hc
  exact absurd hc (by decide)

lemma isFieldLine_cons_ws {c : Char} (hc : isPySpace c = true) (l : Chars) :
    isFieldLine (c :: l) = isFieldLine l := by
  rw [isFieldLine, isFieldLine, splitFirstColon, if_neg (ws_ne_colon hc)]
  cases h : splitFirstColon l with
  | none => rfl
  | some kv => simp only [strip_cons_ws hc]

lemma isFieldLine_ltrim (l : Chars) :
    isFieldLine (l.dropWhile isPySpace) = isFieldLine l := by
  induction l with
  | nil => rfl
  | cons c l' ih =>
    rw [List.dropWhile_cons]
    by_cases hc : isPySpace c = true
    · rw [if_pos hc, ih, isFieldLine_cons_ws hc]
    · rw [if_neg hc]

lemma splitFirstColon_append (l t : Chars) :
    splitFirstColon (l ++ t) =
      match splitFirstColon l with
      | some kv => some (kv.1, kv.2 ++ t)
      | none =>
        match splitFirstColon t with
        | some kv2 => some (l ++ kv2.1, kv2.2)
        | none => none := by
  induction l with
  | nil =>
    simp only [List.nil_append, splitFirstColon]
    cases splitFirstColon t with
    | none => rfl
    | some kv2 => rfl
  | cons c l' ih =>
    rw [List.cons_append, splitFirstColon]
    by_cases hc : c = ':'
    · rw [if_pos hc, splitFirstColon, if_pos hc]
    · rw [if_neg hc, ih, splitFirstColon, if_neg hc]
      cases h1 : splitFirstColon l' with
      | some kv => rfl
      | none =>
        cases h2 : splitFirstColon t with
        | some kv2 => rfl
        | none => rfl

lemma isFieldLine_snoc_ws {c : Char} (hc : isPySpace c = true) (l : Chars) :
    isFieldLine (l ++ [c]) = isFieldLine l := by
  rw [isFieldLine, isFieldLine, splitFirstColon_append]
  cases h : splitFirstColon l with
  | some kv => rfl
  | none =>
    rw [show splitFirstColon [c] = none by
      rw [splitFirstColon, if_neg (ws_ne_colon hc)]; rfl]

lemma isFieldLine_rtrim (l : Chars) :
    isFieldLine ((l.reverse.dropWhile isPySpace).reverse) = isFieldLine l := by
  induction l using List.reverseRecOn with
  | nil => rfl
  | append_singleton l c ih =>
    by_cases hc : isPySpace c = true
    · rw [List.reverse_append, List.reverse_singleton, List.singleton_append,
        List.dropWhile_cons, if_pos hc, ih, isFieldLine_snoc_ws hc]
    · rw [List.reverse_append, List.reverse_singleton, List.singleton_append,
        List.dropWhile_cons, if_neg hc, List.reverse_cons, List.reverse_reverse]

lemma mem_revmap {l : Chars} {cs : List Chars} : l ∈ revmap cs ↔ l.reverse ∈ cs := by
  rw [revmap, List.mem_reverse, List.mem_map]
  constructor
  · rintro ⟨x, hx, he⟩
    rw [← he, List.reverse_reverse]
    exact hx
  · intro h
    exact ⟨l.reverse, h, List.reverse_reverse l⟩

lemma leftTrimChunks_mem {P : Chars → Prop} (hP : ∀ l, P l → P (l.dropWhile isPySpace))
    {cs : List Chars} (hcs : ∀ l ∈ cs, P l) : ∀ l ∈ leftTrimChunks cs, P l := by
  induction cs with
  | nil => simp [leftTrimChunks]
  | cons c cs' ih =>
    rw [leftTrimChunks]
    by_cases he : (c.dropWhile isPySpace).isEmpty = true
    · rw [if_pos he]
      exact ih (fun l hl => hcs l (List.mem_cons_of_mem c hl))
    · rw [if_neg he]
      intro l hl
      rcases List.mem_cons.mp hl with hl | hl
      · subst hl
        exact hP c (hcs c (List.mem_cons_self c cs'))
      · exact hcs l (List.mem_cons_of_mem c hl)

lemma stripChunks_mem {P : Chars → Prop}
    (hP1 : ∀ l, P l → P (l.dropWhile isPySpace))
    (hP2 : ∀ l, P l → P ((l.reverse.dropWhile isPySpace).reverse))
    {cs : List Chars} (hcs : ∀ l ∈ cs, P l) : ∀ l ∈ stripChunks cs, P l := by
  intro l hl
  rw [stripChunks] at hl
  have h1 : ∀ m ∈ leftTrimChunks cs, P m := leftTrimChunks_mem hP1 hcs
  have h2 : ∀ m ∈ revmap (leftTrimChunks cs), P m.reverse :=
    fun m hm => h1 _ (mem_revmap.mp hm)
  have h3 : ∀ m ∈ leftTrimChunks (revmap (leftTrimChunks cs)), P m.reverse := by
    refine leftTrimChunks_mem ?_ h2
    intro m hm
    have := hP2 m.reverse hm
    rwa [List.reverse_reverse] at this
  have h4 := h3 l.reverse (mem_revmap.mp hl)
  rwa [List.reverse_reverse] at h4

lemma leftTrimChunks_head_ne_nil {cs : List Chars} {h : Chars} {t : List Chars}
    (he : leftTrimChunks cs = h :: t) : h ≠ [] := by
  induction cs with
  | nil => simp [leftTrimChunks] at he
  | cons c cs' ih =>
    rw [leftTrimChunks] at he
    by_cases hemp : (c.dropWhile isPySpace).isEmpty = true
    · rw [if_pos hemp] at he
      exact ih he
    · rw [if_neg hemp] at he
      injection he with h1 h2
      rw [← h1]
      exact fun hn => hemp (by rw [hn]; rfl)

lemma stripChunks_getLast_ne_nil {cs : List Chars} {h : Chars}
    (he : (stripChunks cs).getLast? = some h) : h ≠ [] := by
  rw [stripChunks, revmap, List.getLast?_reverse] at he
  cases hB : leftTrimChunks (revmap (leftTrimChunks cs)) with
  | nil =>
    rw [hB] at he
    simp at he
  | cons b t =>
    rw [hB] at he
    simp only [List.map_cons, List.head?_cons, Option.some.injEq] at he
    subst he
    have hb := leftTrimChunks_head_ne_nil hB
    simp [hb]

lemma extract_fst_eq (msg : Chars) :
    (extract_fields_from_message msg).1 =
      pyStrip (joinNL ((pySplitlines msg).filter (fun l => !isFieldLine l))) := by
  rw [extract_fields_from_message]
  simp only [foldl_extract_fst, List.nil_append]

/-- Claim C1, counterexample (corrected): for the yellow accent color 0xF1C40F
(used by the warning and disk_full kinds) the glyph is the orange circle, not
the yellow circle, because the orange branch's numeric range
0xF00000–0xFFFF00 contains 0xF1C40F and is tested before the yellow
exact-match case. -/
theorem claim_C1_counterexample :
    color_emoji_for_color 0xF1C40F = "🟠".data ∧
    color_emoji_for_color 0xF1C40F ≠ "🟡".data ∧
    (eventEntry "warning".data).2.2 = 0xF1C40F ∧
    (eventEntry "disk_full".data).2.2 = 0xF1C40F := by
  refine ⟨by decide, by decide, by decide, by decide⟩

/-- Claim C1, amended: each branch of color_emoji_for_color tests its
exact-match and its numeric range together, in order orange, green, red,
yellow, blue; the five accent colors of EVENT_MAP map to orange, green, red,
orange (for 0xF1C40F, captured by the orange range before the yellow case is
reached) and blue, and the yellow-circle glyph is unreachable for every
color. -/
theorem claim_C1_amended :
    color_emoji_for_color 0xF39C12 = "🟠".data ∧
    color_emoji_for_color 0x2ECC71 = "🟢".data ∧
    color_emoji_for_color 0xE74C3C = "🔴".data ∧
    color_emoji_for_color 0xF1C40F = "🟠".data ∧
    color_emoji_for_color 0x3498DB = "🔵".data ∧
    ∀ c : Int, color_emoji_for_color c ≠ "🟡".data := by
  refine ⟨by decide, by decide, by decide, by decide, by decide, ?_⟩
  intro c
  rw [color_emoji_for_color]
  split_ifs with h1 h2 h3 h4 h5
  · decide
  · decide
  · decide
  · exact absurd (Or.inr (by rw [h4]; constructor <;> decide)) h1
  · decide
  · decide

/-- Claim C2, counterexample (corrected): make_embed does not normalize its
event-kind argument; for the raw kind "Complete" it resolves the fallback
presentation while the trimmed lower-cased kind "complete" resolves the
configured complete presentation, so the two calls differ. -/
theorem claim_C2_counterexample :
    (make_embed [] "Complete".data "T".data "m".data []).title =
      "SABnzbd: ℹ️ Complete".data ∧
    (make_embed [] (pyLower (pyStrip "Complete".data)) "T".data "m".data []).title =
      "SABnzbd: ✅ Job finished".data ∧
    (make_embed [] "Complete".data "T".data "m".data []).title ≠
      (make_embed [] (pyLower (pyStrip "Complete".data)) "T".data "m".data []).title := by
  refine ⟨by decide, by decide, by decide⟩

/-- Claim C2, amended: the trim-and-lowercase normalization is performed by
main, not by the formatter; for the kind strings main actually passes (which
are of the form lower(strip(s)) and hence fixpoints of the normalization),
formatting the kind and formatting its normalization agree. -/
theorem claim_C2_amended : ∀ (s now title body : Chars) (urls : List Chars),
    make_embed now (pyLower (pyStrip s)) title body urls =
      make_embed now (pyLower (pyStrip (pyLower (pyStrip s)))) title body urls := by
  intro s now title body urls
  rw [norm_fixpoint]

/-- Claim C3, counterexample (corrected): when the message contains a
`Category:` line with an empty value, the field map holds the key with the
empty string, but the resolved category falls back to the raw kind string
(Python `or` treats the empty string as absent), so the Category field value
is the glyph plus "download" rather than the glyph alone. -/
theorem claim_C3_counterexample :
    dictLookup (extract_fields_from_message "Category:".data).2 "category".data = some [] ∧
    (make_embed [] "download".data "T".data "Category:".data []).fields.map EmbedField.value =
      ["🟠 download".data, "📥 download".data] ∧
    ("🟠 download".data : Chars) ≠ "🟠 ".data := by
  refine ⟨by decide, by decide, by decide⟩

/-- Claim C3, amended: the resolved category is fieldMap["category"] when that
entry is present and non-empty, else the raw kind; the resolved download
status is the first present-and-non-empty entry among
fieldMap["download status"] and fieldMap["status"], else the raw kind. -/
theorem claim_C3_amended : ∀ (now ntype title body : Chars) (urls : List Chars),
    (make_embed now ntype title body urls).fields =
      [ { name := "Category".data,
          value := color_emoji_for_color (eventEntry ntype).2.2 ++ " ".data ++
            specResolveCategory (extract_fields_from_message body).2 ntype,
          inline := true },
        { name := "Download Status".data,
          value := (eventEntry ntype).2.1 ++ " ".data ++
            specResolveStatus (extract_fields_from_message body).2 ntype,
          inline := true } ] := by
  intro now ntype title body urls
  rw [specResolveCategory, specResolveStatus]
  simp only [make_embed, ← pyGetOr_eq_specOrElse]

/-- Claim C4, counterexample (corrected): the InputError exit code equals the
delivery-failure exit code (both 1), so the input-error signal is not
distinct from the delivery-failure signal: with a configured webhook, two
positional arguments give exit 1, and three positional arguments with a
failing transport also give exit 1. -/
theorem claim_C4_counterexample :
    pyMain "w".data ["a".data, "b".data] [] (HttpResult.exn "connection refused".data) = 1 ∧
    pyMain "w".data ["a".data, "b".data, "c".data] []
      (HttpResult.exn "connection refused".data) = 1 := by
  refine ⟨by decide, by decide⟩

/-- Claim C4, amended: missing webhook configuration exits 2 (distinct from
both success 0 and delivery failure 1), fewer than three positional arguments
exits 1 (the same code as a delivery failure), and with three arguments the
exit code is 0 exactly when the delivery outcome is Sent and 1 for Rejected
or TransportFailure. -/
theorem claim_C4_amended : ∀ (w : Chars) (argv : List Chars) (now : Chars) (tr : HttpResult),
    (w = [] → pyMain w argv now tr = 2) ∧
    (w ≠ [] → argv.length < 3 → pyMain w argv now tr = 1) ∧
    (∀ a0 a1 a2 rest, w ≠ [] → argv = a0 :: a1 :: a2 :: rest →
      pyMain w argv now tr = if webhookOutcome tr = DeliveryOutcome.sent then 0 else 1) := by
  intro w argv now tr
  refine ⟨?_, ?_, ?_⟩
  · intro hw
    subst hw
    rfl
  · intro hw hlen
    rw [pyMain.eq_def, if_neg (by simpa [List.isEmpty_iff] using hw), if_pos hlen]
  · intro a0 a1 a2 rest hw hargv
    subst hargv
    rw [pyMain, if_neg (by simpa [List.isEmpty_iff] using hw),
      if_neg (by simp only [List.length_cons]; omega : ¬(a0 :: a1 :: a2 :: rest).length < 3)]
    show (if (send_webhook tr w (some DEFAULT_USERNAME) DEFAULT_AVATAR
        (make_embed now (pyLower (pyStrip a0)) a1 a2 (splitCommas rest)) false).ok
      then 0 else 1) = _
    by_cases hs : webhookOutcome tr = DeliveryOutcome.sent
    · rw [if_pos hs, if_pos ((send_ok_iff tr w (some DEFAULT_USERNAME) DEFAULT_AVATAR _).mpr hs)]
    · rw [if_neg hs, if_neg]
      intro hc
      exact hs ((send_ok_iff tr w (some DEFAULT_USERNAME) DEFAULT_AVATAR _).mp hc)

/-- Witness for claim C4 amended: the three branches evaluated at concrete
inputs (no webhook exits 2; one argument exits 1; three arguments with an
HTTP 200 transport follow the outcome mapping). -/
theorem claim_C4_amended_witness :
    (([] : Chars) = [] ∧ pyMain [] [] [] (HttpResult.response 200 []) = 2) ∧
    (("w".data : Chars) ≠ [] ∧ (["a".data] : List Chars).length < 3 ∧
      pyMain "w".data ["a".data] [] (HttpResult.response 200 []) = 1) ∧
    (("w".data : Chars) ≠ [] ∧
      pyMain "w".data ["complete".data, "T".data, "m".data] [] (HttpResult.response 200 []) =
        if webhookOutcome (HttpResult.response 200 []) = DeliveryOutcome.sent then 0 else 1) :=
  ⟨⟨rfl, (claim_C4_amended [] [] [] (HttpResult.response 200 [])).1 rfl⟩,
   ⟨by decide, by decide,
    (claim_C4_amended "w".data ["a".data] [] (HttpResult.response 200 [])).2.1
      (by decide) (by decide)⟩,
   ⟨by decide,
    (claim_C4_amended "w".data ["complete".data, "T".data, "m".data] []
        (HttpResult.response 200 [])).2.2
      "complete".data "T".data "m".data [] (by decide) rfl⟩⟩

/-- Claim C5, counterexample (corrected): with an empty title and an empty
message the description is the empty string, so the description is not
always non-empty. -/
theorem claim_C5_counterexample :
    (make_embed [] "download".data [] [] []).description = [] := by decide

/-- Claim C5, amended: the description equals the cleaned description when
that is non-empty and otherwise the original title argument; it is empty
exactly when both the cleaned description and the title are empty. -/
theorem claim_C5_amended : ∀ (now ntype title body : Chars) (urls : List Chars),
    ((make_embed now ntype title body urls).description =
      (if (extract_fields_from_message body).1 = [] then title
       else (extract_fields_from_message body).1)) ∧
    ((make_embed now ntype title body urls).description = [] ↔
      (extract_fields_from_message body).1 = [] ∧ title = []) := by
  intro now ntype title body urls
  have h1 : (make_embed now ntype title body urls).description =
      (if (extract_fields_from_message body).1 = [] then title
       else (extract_fields_from_message body).1) := by
    simp only [make_embed, List.isEmpty_iff]
  refine ⟨h1, ?_⟩
  rw [h1]
  by_cases h : (extract_fields_from_message body).1 = []
  · simp [h]
  · simp [h]

/-- Claim C6 (confirmed): the HSL→RGB helper at hue 37, saturation 1,
lightness 1/2 returns exactly 16751872 = 0xFF9D00 (r = 255, g = 157, b = 0),
and the specification's documented formula (chroma, hue segment, secondary
component, six segment cases, lightness offset, per-channel rounding, bitwise
packing) evaluates to the same integer; determinism is intrinsic since the
embedded function is pure. -/
theorem claim_C6 :
    hsl_to_rgb_int 37 1 (1 / 2) = 16751872 ∧
    hslSpecFormula 37 1 (1 / 2) = 16751872 ∧
    hsl_to_rgb_int 37 1 (1 / 2) = hslSpecFormula 37 1 (1 / 2) := by
  refine ⟨hsl_code_val, hsl_spec_val, ?_⟩
  rw [hsl_code_val, hsl_spec_val]

/-- Claim C7 (confirmed): extraction is line-scoped; the cleaned description
is the stripped newline-join of exactly the non-matching lines in order, and
for each recognised key the field map holds the stripped value after the
first colon of the last matching line. -/
theorem claim_C7 : ∀ (msg k : Chars), k ∈ fieldKeys →
    (extract_fields_from_message msg).1 =
      pyStrip (joinNL ((pySplitlines msg).filter (fun l => !isFieldLine l))) ∧
    dictLookup (extract_fields_from_message msg).2 k = lastFieldValue k (pySplitlines msg) := by
  intro msg k hk
  constructor
  · exact extract_fst_eq msg
  · rw [extract_fields_from_message]
    simp only [foldl_extract_lookup _ _ _ _ hk]
    rw [show dictLookup [] k = none from rfl, optOr_none_right]

/-- Witness for claim C7: the characterization evaluated on a concrete
message with a repeated Category line, a colon-bearing non-matching line and
a plain line, at the key "category". -/
theorem claim_C7_witness :
    ("category".data ∈ fieldKeys) ∧
    ((extract_fields_from_message "Category: A\nCategory: B\nnote: keep\nhello".data).1 =
        pyStrip (joinNL ((pySplitlines "Category: A\nCategory: B\nnote: keep\nhello".data).filter
          (fun l => !isFieldLine l))) ∧
      dictLookup (extract_fields_from_message "Category: A\nCategory: B\nnote: keep\nhello".data).2
          "category".data =
        lastFieldValue "category".data
          (pySplitlines "Category: A\nCategory: B\nnote: keep\nhello".data)) :=
  ⟨by decide,
   claim_C7 "Category: A\nCategory: B\nnote: keep\nhello".data "category".data (by decide)⟩

/-- Claim C8 (confirmed): field extraction is idempotent on the cleaned
description; running it again extracts no fields and returns the text
unchanged. -/
theorem claim_C8 : ∀ msg : Chars,
    extract_fields_from_message ((extract_fields_from_message msg).1) =
      ((extract_fields_from_message msg).1, []) := by
  intro msg
  rw [extract_fst_eq msg]
  set keep := (pySplitlines msg).filter (fun l => !isFieldLine l) with hkeep
  have hkeepgood : ∀ l ∈ keep, (∀ c ∈ l, isLineBreak c = false) ∧ isFieldLine l = false := by
    intro l hl
    rw [hkeep] at hl
    refine ⟨noBreak_lines msg l (List.mem_of_mem_filter hl), ?_⟩
    have := List.of_mem_filter hl
    simpa using this
  have hds : ∀ l ∈ stripChunks keep,
      (∀ c ∈ l, isLineBreak c = false) ∧ isFieldLine l = false := by
    refine stripChunks_mem ?_ ?_ hkeepgood
    · intro l hl
      refine ⟨fun c hc => hl.1 c ((List.dropWhile_sublist _).subset hc), ?_⟩
      rw [isFieldLine_ltrim]
      exact hl.2
    · intro l hl
      refine ⟨fun c hc => ?_, ?_⟩
      · refine hl.1 c ?_
        have := List.mem_reverse.mp hc
        exact List.mem_reverse.mp ((List.dropWhile_sublist _).subset this)
      · rw [isFieldLine_rtrim]
        exact hl.2
  have hsplit : pySplitlines (pyStrip (joinNL keep)) = stripChunks keep := by
    rw [pyStrip_joinNL]
    exact pySplitlines_joinNL _ (fun l hl => (hds l hl).1)
      (fun h he => stripChunks_getLast_ne_nil he)
  rw [extract_fields_from_message, hsplit,
    foldl_extract_nonfield _ _ _ (fun l hl => (hds l hl).2), List.nil_append,
    ← pyStrip_joinNL, pyStrip_idem]

/-- Claim C9 (confirmed): the document has a thumbnail exactly when the urls
list is non-empty, and the thumbnail url is the first url. -/
theorem claim_C9 : ∀ (now ntype title body : Chars) (urls : List Chars),
    ((make_embed now ntype title body urls).thumbnail.isSome ↔ urls ≠ []) ∧
    (make_embed now ntype title body urls).thumbnail = urls.head? := by
  intro now ntype title body urls
  cases urls <;> simp [make_embed]

/-- Claim C10 (confirmed): in debug mode the deliverer performs zero transport
calls, returns the success boolean independently of the transport, and the
payload it built contains exactly the embed with the username and avatar keys
present only when the respective argument is non-empty. -/
theorem claim_C10 : ∀ (tr : HttpResult) (w : Chars) (u a : Option Chars) (e : Embed),
    (send_webhook tr w u a e true).ok = true ∧
    (send_webhook tr w u a e true).networkCalls = 0 ∧
    (∀ tr2, send_webhook tr2 w u a e true = send_webhook tr w u a e true) ∧
    (send_webhook tr w u a e true).payload.embeds = [e] ∧
    (send_webhook tr w u a e true).payload.username = (if pyTruthy u then u else none) ∧
    (send_webhook tr w u a e true).payload.avatar_url = (if pyTruthy a then a else none) := by
  intro tr w u a e
  refine ⟨rfl, rfl, fun tr2 => rfl, rfl, ?_, ?_⟩ <;> simp [send_webhook, buildPayload]
